import Mathlib

set_option maxRecDepth 100000

/-!
Shallow embedding of `src/engine/thermal_sim/thermal_simulator.py` (class
`ThermalSimulator`).  Machine floats are modelled by exact rationals, numpy
arrays by total functions on integer triples together with explicit extents,
and raised exceptions (`ValueError`, numpy `IndexError`) by `Except`.
-/

namespace ThermalSim

/-- A voxel index `(i, j, k)` into the simulation arrays. -/
abbrev Cell := ℤ × ℤ × ℤ

/-- Model of `config["material"]` (`simulate_step`, lines 86-88), with the
`dict.get` defaults resolved at construction time. -/
structure Material where
  thermal_conductivity : ℚ
  specific_heat : ℚ
  density : ℚ
  deriving DecidableEq

/-- The configuration dictionary, with all `config.get` defaults resolved. -/
structure Config where
  resolution : ℚ
  time_step : ℚ
  ambient_temperature : ℚ
  convection_coefficient : ℚ
  extrusion_temperature : ℚ
  cooling_rate_threshold : ℚ
  max_temp_threshold : ℚ
  material : Material
  deriving DecidableEq

/-- The pair of co-indexed numpy arrays `self.grid` (occupancy, 0 = air,
1 = material, modelled as `Bool`) and `self.temperature`, together with their
common shape `(nx, ny, nz)`.  Values of the functions outside
`[0,nx) × [0,ny) × [0,nz)` are never read by any operation. -/
structure Grid where
  nx : ℕ
  ny : ℕ
  nz : ℕ
  occ : Cell → Bool
  temp : Cell → ℚ

/-- One entry of `self.history` (`simulate_step`, lines 143-148). -/
structure Sample where
  time : ℚ
  max_temp : ℚ
  min_temp : ℚ
  avg_temp : ℚ
  deriving DecidableEq

instance : Inhabited Sample := ⟨⟨0, 0, 0, 0⟩⟩

/-- The mutable state of a `ThermalSimulator` instance (`__init__`):
`self.grid`/`self.temperature` are `none` before `initialize_grid`. -/
structure SimState where
  config : Config
  grid : Option Grid
  time : ℚ
  history : List Sample

/-- Error conditions surfaced by the simulator: `ValueError("Grid not
initialized")`, numpy `IndexError` on an out-of-range z index, and
`ValueError("No simulation data available")`. -/
inductive SimError where
  | gridNotInitialized
  | indexOutOfRange
  | noSimulationData
  deriving DecidableEq

/-- The `issue["type"]` strings of `analyze_results`. -/
inductive IssueType where
  | high_cooling_rate
  | high_temperature
  deriving DecidableEq

/-- One entry of `potential_issues` (the `message` string is determined by
the other fields and is not modelled). -/
structure Issue where
  type : IssueType
  value : ℚ
  threshold : ℚ
  deriving DecidableEq

/-- The result dictionary of `analyze_results`. -/
structure Report where
  simulation_time : ℚ
  num_steps : ℕ
  final_max : ℚ
  final_min : ℚ
  final_avg : ℚ
  max_cooling_rate : ℚ
  avg_cooling_rate : ℚ
  potential_issues : List Issue
  history : List Sample
  deriving DecidableEq

/-- The `layer_data` argument of `add_layer`: a 2D occupancy mask over the
(x,y) plane (its encoding is irrelevant because the code never reads it). -/
abbrev Footprint := ℤ → ℤ → Bool

/-! ### Index lists mirroring the Python `range` loops -/

/-- Python `range(n)` as a list of integers. -/
def intRange (n : ℕ) : List ℤ := (List.range n).map (Nat.cast : ℕ → ℤ)

/-- Python `range(a, a + len)` as a list of integers. -/
def intRange' (a len : ℕ) : List ℤ := (List.range' a len).map (Nat.cast : ℕ → ℤ)

/-- The nested loop `for a in l₁: for b in l₂:` as a list of pairs in
iteration order. -/
def listProd {α β : Type} : List α → List β → List (α × β)
  | [], _ => []
  | a :: t, l₂ => (l₂.map fun b => (a, b)) ++ listProd t l₂

/-- All indices of a grid: `for i in range(nx): for j in range(ny):
for k in range(nz)`. -/
def allCells (g : Grid) : List Cell :=
  listProd (intRange g.nx) (listProd (intRange g.ny) (intRange g.nz))

/-- The interior indices visited by the stencil loop of `simulate_step`
(lines 100-102): `range(1, n-1)` on each axis. -/
def interiorCells (g : Grid) : List Cell :=
  listProd (intRange' 1 (g.nx - 2)) (listProd (intRange' 1 (g.ny - 2)) (intRange' 1 (g.nz - 2)))

/-! ### Whole-field statistics (numpy reductions) -/

/-- Model of `np.max(self.temperature)`: maximum over the whole temperature array.
The seed `g.temp (0,0,0)` is the first array element; every initialized grid
has `nx, ny, nz ≥ 1`, so the array is never empty. -/
def fieldMax (g : Grid) : ℚ :=
  ((allCells g).map g.temp).foldl max (g.temp (0, 0, 0))

/-- Model of `np.min(self.temperature)`. -/
def fieldMin (g : Grid) : ℚ :=
  ((allCells g).map g.temp).foldl min (g.temp (0, 0, 0))

/-- Model of `np.any(self.grid > 0)`. -/
def anyOcc (g : Grid) : Bool := (allCells g).any fun c => g.occ c

/-- The list of temperatures of occupied cells, `self.temperature[self.grid > 0]`. -/
def occTemps (g : Grid) : List ℚ :=
  ((allCells g).filter fun c => g.occ c).map g.temp

/-- Sum of temperatures over occupied cells. -/
def sumOccTemps (g : Grid) : ℚ := (occTemps g).sum

/-- Model of `np.mean(self.temperature[self.grid > 0])` (only evaluated when some
cell is occupied). -/
def avgOcc (g : Grid) : ℚ := sumOccTemps g / ((occTemps g).length : ℚ)

/-- Minimum temperature over occupied cells (a statistic the spec talks
about; the code never computes it).  Only meaningful when some cell is
occupied. -/
def minOcc (g : Grid) : ℚ :=
  match occTemps g with
  | [] => 0
  | x :: xs => xs.foldl min x

/-! ### `__init__` and `initialize_grid` -/

/-- Python `int(q)`: truncation toward zero. -/
def ratTrunc (q : ℚ) : ℤ := q.num.tdiv q.den

/-- Model of `int(dimension / resolution) + 1` (lines 32-34). -/
def gridDim (dim resolution : ℚ) : ℕ := (ratTrunc (dim / resolution)).toNat + 1

/-- Model of the constructor `ThermalSimulator(config)`. -/
def mkSimulator (config : Config) : SimState :=
  { config := config, grid := none, time := 0, history := [] }

/-- Model of `initialize_grid(dimensions, resolution)` (lines 23-43): allocates the
temperature array (all ambient) and the occupancy array (all air).  The
source performs no already-initialized or dimension validation check. -/
def initialize_grid (s : SimState) (dimensions : ℚ × ℚ × ℚ) (resolution : ℚ) : SimState :=
  { s with
    grid := some
      { nx := gridDim dimensions.1 resolution
        ny := gridDim dimensions.2.1 resolution
        nz := gridDim dimensions.2.2 resolution
        occ := fun _ => false
        temp := fun _ => s.config.ambient_temperature } }

/-! ### `add_layer` -/

/-- Model of `center_x = nx // 2` (line 60). -/
def centerX (g : Grid) : ℤ := (g.nx / 2 : ℕ)

/-- Model of `center_y = ny // 2` (line 60). -/
def centerY (g : Grid) : ℤ := (g.ny / 2 : ℕ)

/-- Model of `radius = min(center_x, center_y) - 5` (line 61). -/
def circRadius (g : Grid) : ℤ := min (centerX g) (centerY g) - 5

/-- The test `np.sqrt((i - cx)**2 + (j - cy)**2) <= radius` (lines 66-67),
stated equivalently over the integers: a nonnegative square root is at most
`radius` iff `radius` is nonnegative and the squared distance is at most
`radius**2`. -/
def inCircle (g : Grid) (i j : ℤ) : Bool :=
  decide (0 ≤ circRadius g ∧ (i - centerX g) ^ 2 + (j - centerY g) ^ 2 ≤ circRadius g ^ 2)

/-- Resolution of the numpy index `z_level` on an axis of extent `nz`:
indices in `[0, nz)` are used as is, indices in `[-nz, 0)` wrap to
`nz + z_level`, anything else raises `IndexError`. -/
def zEffective (nz : ℕ) (z : ℤ) : Option ℤ :=
  if 0 ≤ z ∧ z < (nz : ℤ) then some z
  else if -(nz : ℤ) ≤ z ∧ z < 0 then some (z + nz) else none

/-- The body of one iteration of the deposit loop when the z index resolves
to `ze`: `self.grid[i, j, z] = 1; self.temperature[i, j, z] = extrusion_temp`
guarded by the circle test (lines 64-72). -/
def layerWrite (cfg : Config) (g : Grid) (ze : ℤ) (gAcc : Grid) (ij : ℤ × ℤ) : Grid :=
  if inCircle g ij.1 ij.2 then
    { gAcc with
      occ := Function.update gAcc.occ (ij.1, ij.2, ze) true
      temp := Function.update gAcc.temp (ij.1, ij.2, ze) cfg.extrusion_temperature }
  else gAcc

/-- Model of `add_layer(layer_data, z_level)` (lines 45-72).  The footprint argument
`layer_data` is never read: the loop always rasterizes the hard-coded
circular shape.  The two array stores of an iteration raise `IndexError`
when `z_level` is outside `[-nz, nz)`; no store before them has executed,
because every store of the loop uses the same z index. -/
def add_layer (s : SimState) (layer_data : Footprint) (z_level : ℤ) :
    Except SimError SimState :=
  match s.grid with
  | none => .error .gridNotInitialized
  | some g =>
    ((listProd (intRange g.nx) (intRange g.ny)).foldlM
      (fun gAcc ij =>
        if inCircle g ij.1 ij.2 then
          match zEffective g.nz z_level with
          | some ze => Except.ok (layerWrite s.config g ze gAcc ij)
          | none => Except.error SimError.indexOutOfRange
        else Except.ok gAcc) g).map
      fun g' => { s with grid := some g' }

/-! ### `simulate_step` -/

/-- Model of `alpha = thermal_conductivity / (density * specific_heat)` (line 116). -/
def alphaOf (cfg : Config) : ℚ :=
  cfg.material.thermal_conductivity / (cfg.material.density * cfg.material.specific_heat)

/-- The 6-neighbor stencil of lines 105-113, read from the prior-step
temperature array `self.temperature`. -/
def lapAt (g : Grid) (c : Cell) : ℚ :=
  g.temp (c + (1, 0, 0)) + g.temp (c + (-1, 0, 0)) +
  g.temp (c + (0, 1, 0)) + g.temp (c + (0, -1, 0)) +
  g.temp (c + (0, 0, 1)) + g.temp (c + (0, 0, -1)) - 6 * g.temp c

/-- The six axis offsets of line 123, in source order. -/
def nbrOffsets : List Cell :=
  [(1, 0, 0), (-1, 0, 0), (0, 1, 0), (0, -1, 0), (0, 0, 1), (0, 0, -1)]

/-- The bounds test `0 <= ni < nx and 0 <= nj < ny and 0 <= nk < nz` (line 125). -/
def inBounds (g : Grid) (c : Cell) : Bool :=
  decide (0 ≤ c.1 ∧ c.1 < (g.nx : ℤ) ∧ 0 ≤ c.2.1 ∧ c.2.1 < (g.ny : ℤ) ∧
    0 ≤ c.2.2 ∧ c.2.2 < (g.nz : ℤ))

/-- The surface test of lines 122-128: some in-bounds axis neighbor is air. -/
def isSurfaceAt (g : Grid) (c : Cell) : Bool :=
  nbrOffsets.any fun d => inBounds g (c + d) && !(g.occ (c + d))

/-- One iteration of the stencil loop (lines 103-133) acting on the output
buffer `new_temp`: both `+=` stores target cell `c`; the Laplacian and the
convection term read only the prior-step array `g.temp`. -/
def stepBody (cfg : Config) (g : Grid) (buf : Cell → ℚ) (c : Cell) : Cell → ℚ :=
  if g.occ c then
    let buf1 := Function.update buf c (buf c + alphaOf cfg * cfg.time_step * lapAt g c)
    if isSurfaceAt g c then
      Function.update buf1 c (buf1 c +
        cfg.convection_coefficient * (cfg.ambient_temperature - g.temp c) * cfg.time_step /
          (cfg.material.density * cfg.material.specific_heat))
    else buf1
  else buf

/-- The buffer `new_temp` at the end of the stencil loop: the fold of `stepBody` over
the interior cells, started from a copy of the prior-step array. -/
def newTempField (cfg : Config) (g : Grid) : Cell → ℚ :=
  (interiorCells g).foldl (stepBody cfg g) g.temp

/-- Model of `simulate_step()` (lines 74-148). -/
def simulate_step (s : SimState) : Except SimError SimState :=
  match s.grid with
  | none => .error .gridNotInitialized
  | some g =>
    let g' : Grid := { g with temp := newTempField s.config g }
    let t' : ℚ := s.time + s.config.time_step
    let hist : List Sample :=
      if s.history.length % 10 = 0 then
        s.history ++ [{ time := t'
                        max_temp := fieldMax g'
                        min_temp := fieldMin g'
                        avg_temp := if anyOcc g' then avgOcc g'
                                    else s.config.ambient_temperature }]
      else s.history
    .ok { s with grid := some g', time := t', history := hist }

/-- Iterated stepping: `n` successive calls to `simulate_step` (the loop of `run_simulation`). -/
def stepN : ℕ → SimState → Except SimError SimState
  | 0, s => .ok s
  | n + 1, s => (simulate_step s).bind (stepN n)

/-! ### `analyze_results` -/

/-- The cooling-rate loop of lines 183-188: for `i in range(1, len(history))`,
when `history[i].time - history[i-1].time > 0`, record
`(history[i-1].max_temp - history[i].max_temp) / (time delta)`. -/
def cooling_rates (h : List Sample) : List ℚ :=
  (List.range' 1 (h.length - 1)).filterMap fun i =>
    let td := (h.getD i default).time - (h.getD (i - 1) default).time
    if 0 < td then some (((h.getD (i - 1) default).max_temp - (h.getD i default).max_temp) / td)
    else none

/-- Model of `max(cooling_rates) if cooling_rates else 0.0` (line 191). -/
def maxRateOf (rates : List ℚ) : ℚ :=
  match rates with
  | [] => 0
  | r :: rs => rs.foldl max r

/-- Model of `np.mean(cooling_rates) if cooling_rates else 0.0` (line 223). -/
def avgRateOf (rates : List ℚ) : ℚ :=
  match rates with
  | [] => 0
  | r :: rs => (r :: rs).sum / (((r :: rs).length : ℚ))

/-- Model of `analyze_results()` (lines 168-229). -/
def analyze_results (s : SimState) : Except SimError Report :=
  match s.grid with
  | none => .error .noSimulationData
  | some g =>
    let rates := cooling_rates s.history
    let mcr := maxRateOf rates
    let issues : List Issue :=
      (if s.config.cooling_rate_threshold < mcr then
        [{ type := .high_cooling_rate, value := mcr,
           threshold := s.config.cooling_rate_threshold }]
      else []) ++
      (if s.config.max_temp_threshold < fieldMax g then
        [{ type := .high_temperature, value := fieldMax g,
           threshold := s.config.max_temp_threshold }]
      else [])
    .ok { simulation_time := s.time
          num_steps := s.history.length * 10
          final_max := fieldMax g
          final_min := fieldMin g
          final_avg := if anyOcc g then avgOcc g else 0
          max_cooling_rate := mcr
          avg_cooling_rate := avgRateOf rates
          potential_issues := issues
          history := s.history }

/-! ### Projections used to state concrete evaluations -/

/-- Occupancy at a cell, `false` when uninitialized. -/
def occAt (s : SimState) (c : Cell) : Bool :=
  match s.grid with
  | some g => g.occ c
  | none => false

/-- Temperature at a cell, `0` when uninitialized. -/
def tempAt (s : SimState) (c : Cell) : ℚ :=
  match s.grid with
  | some g => g.temp c
  | none => 0

/-- The error of an `Except`, if any. -/
def errOf {α : Type} : Except SimError α → Option SimError
  | .error e => some e
  | .ok _ => none

/-- Sum of occupied-cell temperatures of the grid of a state. -/
def sumOccOf (s : SimState) : Option ℚ := s.grid.map sumOccTemps

/-! ### Basic lemmas about the index lists -/

lemma mem_intRange {n : ℕ} {i : ℤ} : i ∈ intRange n ↔ 0 ≤ i ∧ i < (n : ℤ) := by
  simp only [intRange, List.mem_map, List.mem_range]
  constructor
  · rintro ⟨m, hm, rfl⟩
    omega
  · rintro ⟨h0, hn⟩
    exact ⟨i.toNat, by omega, by omega⟩

lemma mem_intRange' {a len : ℕ} {i : ℤ} :
    i ∈ intRange' a len ↔ (a : ℤ) ≤ i ∧ i < (a : ℤ) + (len : ℤ) := by
  simp only [intRange', List.mem_map, List.mem_range']
  constructor
  · rintro ⟨m, ⟨j, hj1, hj2⟩, rfl⟩
    omega
  · rintro ⟨h0, hn⟩
    exact ⟨i.toNat, ⟨i.toNat - a, by omega, by omega⟩, by omega⟩

lemma nodup_intRange (n : ℕ) : (intRange n).Nodup :=
  (List.nodup_range n).map fun a b h => by omega

lemma nodup_intRange' (a len : ℕ) : (intRange' a len).Nodup :=
  (List.nodup_range' a len).map fun x y h => by omega

lemma mem_listProd {α β : Type} {l₁ : List α} {l₂ : List β} {p : α × β} :
    p ∈ listProd l₁ l₂ ↔ p.1 ∈ l₁ ∧ p.2 ∈ l₂ := by
  induction l₁ with
  | nil => simp [listProd]
  | cons a t ih =>
    obtain ⟨x, y⟩ := p
    simp only [listProd, List.mem_append, List.mem_map, ih, List.mem_cons, Prod.mk.injEq]
    constructor
    · rintro (⟨b, hb, rfl, rfl⟩ | ⟨hx, hy⟩)
      · exact ⟨Or.inl rfl, hb⟩
      · exact ⟨Or.inr hx, hy⟩
    · rintro ⟨rfl | hx, hy⟩
      · exact Or.inl ⟨y, hy, rfl, rfl⟩
      · exact Or.inr ⟨hx, hy⟩

lemma nodup_listProd {α β : Type} {l₁ : List α} {l₂ : List β}
    (h₁ : l₁.Nodup) (h₂ : l₂.Nodup) : (listProd l₁ l₂).Nodup := by
  induction l₁ with
  | nil => simp [listProd]
  | cons a t ih =>
    obtain ⟨ha, ht⟩ := List.nodup_cons.mp h₁
    refine List.Nodup.append (h₂.map ?_) (ih ht) ?_
    · intro x y hxy
      exact (Prod.mk.injEq _ _ _ _ ▸ hxy).2
    · intro p hp hp'
      obtain ⟨b, _, rfl⟩ := List.mem_map.mp hp
      exact ha (mem_listProd.mp hp').1

lemma mem_allCells {g : Grid} {i j k : ℤ} :
    ((i, j, k) : Cell) ∈ allCells g ↔
      0 ≤ i ∧ i < (g.nx : ℤ) ∧ 0 ≤ j ∧ j < (g.ny : ℤ) ∧ 0 ≤ k ∧ k < (g.nz : ℤ) := by
  simp only [allCells, mem_listProd, mem_intRange]
  tauto

lemma mem_interiorCells {g : Grid} {i j k : ℤ} :
    ((i, j, k) : Cell) ∈ interiorCells g ↔
      1 ≤ i ∧ i ≤ (g.nx : ℤ) - 2 ∧ 1 ≤ j ∧ j ≤ (g.ny : ℤ) - 2 ∧
        1 ≤ k ∧ k ≤ (g.nz : ℤ) - 2 := by
  simp only [interiorCells, mem_listProd, mem_intRange']
  omega

lemma nodup_interiorCells (g : Grid) : (interiorCells g).Nodup :=
  nodup_listProd (nodup_intRange' _ _)
    (nodup_listProd (nodup_intRange' _ _) (nodup_intRange' _ _))

/-! ### The stencil loop writes each interior cell once, reading only the
prior-step array -/

/-- The per-cell result of the stencil body, as a function of the current
buffer value of the cell `v` (all other reads are from the prior-step grid `g`). -/
def newVal (cfg : Config) (g : Grid) (c : Cell) (v : ℚ) : ℚ :=
  if g.occ c then
    let v1 := v + alphaOf cfg * cfg.time_step * lapAt g c
    if isSurfaceAt g c then
      v1 + cfg.convection_coefficient * (cfg.ambient_temperature - g.temp c) * cfg.time_step /
        (cfg.material.density * cfg.material.specific_heat)
    else v1
  else v

lemma stepBody_eq (cfg : Config) (g : Grid) (buf : Cell → ℚ) (c : Cell) :
    stepBody cfg g buf c = Function.update buf c (newVal cfg g c (buf c)) := by
  unfold stepBody newVal
  by_cases hocc : g.occ c
  · simp only [hocc, if_true]
    by_cases hs : isSurfaceAt g c
    · simp only [hs, if_true, Function.update_same, Function.update_idem]
    · simp [hs]
  · simp only [hocc, if_false, Bool.false_eq_true, Function.update_eq_self]

lemma foldl_update_eval {F : Cell → ℚ → ℚ} :
    ∀ (l : List Cell), l.Nodup → ∀ (init : Cell → ℚ) (c : Cell),
      (l.foldl (fun buf x => Function.update buf x (F x (buf x))) init) c
        = if c ∈ l then F c (init c) else init c := by
  intro l
  induction l with
  | nil => intro _ init c; simp
  | cons a t ih =>
    intro hnd init c
    obtain ⟨ha, ht⟩ := List.nodup_cons.mp hnd
    rw [List.foldl_cons, ih ht]
    by_cases hct : c ∈ t
    · have hca : c ≠ a := fun h => ha (h ▸ hct)
      simp [hct, hca, Function.update_noteq hca]
    · by_cases hca : c = a
      · subst hca
        simp [hct, Function.update_same]
      · simp [hct, hca, Function.update_noteq hca]

/-- The output buffer after the stencil loop: each interior cell holds the
value computed from the prior-step array; every other cell keeps its copied
prior-step value. -/
lemma newTempField_apply (cfg : Config) (g : Grid) (c : Cell) :
    newTempField cfg g c =
      if c ∈ interiorCells g then newVal cfg g c (g.temp c) else g.temp c := by
  have hfun : stepBody cfg g = fun buf x => Function.update buf x (newVal cfg g x (buf x)) := by
    funext buf x
    exact stepBody_eq cfg g buf x
  rw [newTempField, hfun, foldl_update_eval _ (nodup_interiorCells g)]

/-! ### The deposit loop of `add_layer` -/

lemma foldlM_ok {β : Type} (f : Grid → β → Grid) :
    ∀ (l : List β) (g : Grid),
      (l.foldlM (fun gAcc b => Except.ok (f gAcc b)) g : Except SimError Grid)
        = Except.ok (l.foldl f g) := by
  intro l
  induction l with
  | nil => intro g; rfl
  | cons a t ih => intro g; rw [List.foldlM_cons]; exact ih (f g a)

/-- When the z index resolves, no iteration fails and the monadic fold is the
pure fold of `layerWrite`. -/
lemma add_layer_fold_ok (cfg : Config) (g : Grid) (z : ℤ) (ze : ℤ)
    (hz : zEffective g.nz z = some ze) (l : List (ℤ × ℤ)) (g0 : Grid) :
    (l.foldlM
      (fun gAcc ij =>
        if inCircle g ij.1 ij.2 then
          match zEffective g.nz z with
          | some ze' => Except.ok (layerWrite cfg g ze' gAcc ij)
          | none => Except.error SimError.indexOutOfRange
        else Except.ok gAcc) g0 : Except SimError Grid)
      = Except.ok (l.foldl (layerWrite cfg g ze) g0) := by
  have hbody : (fun (gAcc : Grid) (ij : ℤ × ℤ) =>
      if inCircle g ij.1 ij.2 then
        match zEffective g.nz z with
        | some ze' => Except.ok (layerWrite cfg g ze' gAcc ij)
        | none => Except.error SimError.indexOutOfRange
      else Except.ok gAcc) = fun gAcc ij => Except.ok (layerWrite cfg g ze gAcc ij) := by
    funext gAcc ij
    rw [hz]
    by_cases hc : inCircle g ij.1 ij.2
    · simp [hc]
    · simp [hc, layerWrite]
  rw [hbody, foldlM_ok]

/-- When the z index does not resolve and some iteration hits the circle,
the fold stops with `IndexError` (and, the failing stores being the first
ones attempted, no state was mutated). -/
lemma add_layer_fold_err (cfg : Config) (g : Grid) (z : ℤ)
    (hz : zEffective g.nz z = none) :
    ∀ (l : List (ℤ × ℤ)) (g0 : Grid),
      (∃ ij ∈ l, inCircle g ij.1 ij.2 = true) →
      (l.foldlM
        (fun gAcc ij =>
          if inCircle g ij.1 ij.2 then
            match zEffective g.nz z with
            | some ze' => Except.ok (layerWrite cfg g ze' gAcc ij)
            | none => Except.error SimError.indexOutOfRange
          else Except.ok gAcc) g0 : Except SimError Grid)
        = Except.error SimError.indexOutOfRange := by
  intro l
  induction l with
  | nil => rintro g0 ⟨ij, hij, _⟩; exact absurd hij (List.not_mem_nil ij)
  | cons a t ih =>
    rintro g0 ⟨ij, hij, hcirc⟩
    rw [List.foldlM_cons]
    by_cases hca : inCircle g a.1 a.2 = true
    · simp only [hca, if_true, hz]
      rfl
    · have : ij ∈ t := by
        rcases List.mem_cons.mp hij with h | h
        · exact absurd (h ▸ hcirc) hca
        · exact h
      simp only [hca, if_false, Bool.false_eq_true]
      exact ih g0 ⟨ij, this, hcirc⟩

/-- Occupancy after the pure deposit fold: exactly the swept circle cells at
level `ze` are set to material; everything else keeps its previous value. -/
lemma depositFold_occ (cfg : Config) (g : Grid) (ze : ℤ) :
    ∀ (l : List (ℤ × ℤ)) (g0 : Grid) (c : Cell),
      (l.foldl (layerWrite cfg g ze) g0).occ c
        = if (c.1, c.2.1) ∈ l ∧ inCircle g c.1 c.2.1 = true ∧ c.2.2 = ze
          then true else g0.occ c := by
  intro l
  induction l with
  | nil => intro g0 c; simp
  | cons a t ih =>
    intro g0 c
    rw [List.foldl_cons, ih]
    by_cases hct : (c.1, c.2.1) ∈ t ∧ inCircle g c.1 c.2.1 = true ∧ c.2.2 = ze
    · have : (c.1, c.2.1) ∈ a :: t ∧ inCircle g c.1 c.2.1 = true ∧ c.2.2 = ze :=
        ⟨List.mem_cons_of_mem a hct.1, hct.2⟩
      rw [if_pos hct, if_pos this]
    · rw [if_neg hct]
      by_cases hceq : c = (a.1, a.2, ze)
      · subst hceq
        by_cases hca : inCircle g a.1 a.2 = true
        · have : ((a.1, a.2) ∈ a :: t ∧ inCircle g a.1 a.2 = true ∧ ze = ze) := by
            exact ⟨List.mem_cons_self a t, hca, rfl⟩
          rw [if_pos this, layerWrite, if_pos hca]
          simp [Function.update_same]
        · have hnot : ¬((a.1, a.2) ∈ a :: t ∧ inCircle g a.1 a.2 = true ∧ ze = ze) := by
            rintro ⟨-, h, -⟩; exact hca h
          rw [if_neg hnot, layerWrite, if_neg hca]
      · have hnot : ¬((c.1, c.2.1) ∈ a :: t ∧ inCircle g c.1 c.2.1 = true ∧ c.2.2 = ze) := by
          rintro ⟨hmem, hcirc, hzz⟩
          rcases List.mem_cons.mp hmem with h | h
          · apply hceq
            have h1 : c.1 = a.1 := congrArg Prod.fst h
            have h2 : c.2.1 = a.2 := congrArg Prod.snd h
            exact Prod.ext h1 (Prod.ext h2 hzz)
          · exact hct ⟨h, hcirc, hzz⟩
        rw [if_neg hnot, layerWrite]
        by_cases hca : inCircle g a.1 a.2 = true
        · rw [if_pos hca]
          have : c ≠ (a.1, a.2, ze) := hceq
          simp only [Function.update_noteq this]
        · rw [if_neg hca]

/-- Temperature after the pure deposit fold. -/
lemma depositFold_temp (cfg : Config) (g : Grid) (ze : ℤ) :
    ∀ (l : List (ℤ × ℤ)) (g0 : Grid) (c : Cell),
      (l.foldl (layerWrite cfg g ze) g0).temp c
        = if (c.1, c.2.1) ∈ l ∧ inCircle g c.1 c.2.1 = true ∧ c.2.2 = ze
          then cfg.extrusion_temperature else g0.temp c := by
  intro l
  induction l with
  | nil => intro g0 c; simp
  | cons a t ih =>
    intro g0 c
    rw [List.foldl_cons, ih]
    by_cases hct : (c.1, c.2.1) ∈ t ∧ inCircle g c.1 c.2.1 = true ∧ c.2.2 = ze
    · have : (c.1, c.2.1) ∈ a :: t ∧ inCircle g c.1 c.2.1 = true ∧ c.2.2 = ze :=
        ⟨List.mem_cons_of_mem a hct.1, hct.2⟩
      rw [if_pos hct, if_pos this]
    · rw [if_neg hct]
      by_cases hceq : c = (a.1, a.2, ze)
      · subst hceq
        by_cases hca : inCircle g a.1 a.2 = true
        · have : ((a.1, a.2) ∈ a :: t ∧ inCircle g a.1 a.2 = true ∧ ze = ze) :=
            ⟨List.mem_cons_self a t, hca, rfl⟩
          rw [if_pos this, layerWrite, if_pos hca]
          simp [Function.update_same]
        · have hnot : ¬((a.1, a.2) ∈ a :: t ∧ inCircle g a.1 a.2 = true ∧ ze = ze) := by
            rintro ⟨-, h, -⟩; exact hca h
          rw [if_neg hnot, layerWrite, if_neg hca]
      · have hnot : ¬((c.1, c.2.1) ∈ a :: t ∧ inCircle g c.1 c.2.1 = true ∧ c.2.2 = ze) := by
          rintro ⟨hmem, hcirc, hzz⟩
          rcases List.mem_cons.mp hmem with h | h
          · apply hceq
            have h1 : c.1 = a.1 := congrArg Prod.fst h
            have h2 : c.2.1 = a.2 := congrArg Prod.snd h
            exact Prod.ext h1 (Prod.ext h2 hzz)
          · exact hct ⟨h, hcirc, hzz⟩
        rw [if_neg hnot, layerWrite]
        by_cases hca : inCircle g a.1 a.2 = true
        · rw [if_pos hca]
          have : c ≠ (a.1, a.2, ze) := hceq
          simp only [Function.update_noteq this]
        · rw [if_neg hca]

/-! ### The cooling-rate loop equals its consecutive-pairs description -/

/-- The description the spec gives of the cooling-rate computation: one rate
`(prev.max_temp - next.max_temp) / (next.time - prev.time)` for each
consecutive pair of samples with positive time delta, pairs with
non-positive delta skipped. -/
def specCoolingRates (h : List Sample) : List ℚ :=
  (h.zip h.tail).filterMap fun pn =>
    if 0 < pn.2.time - pn.1.time then
      some ((pn.1.max_temp - pn.2.max_temp) / (pn.2.time - pn.1.time))
    else none

lemma filterMap_range'_shift {α : Type} (f : ℕ → Option α) :
    ∀ (n s : ℕ),
      (List.range' (s + 1) n).filterMap f
        = (List.range' s n).filterMap fun i => f (i + 1) := by
  intro n
  induction n with
  | zero => intro s; rfl
  | succ n ih =>
    intro s
    rw [List.range'_succ, List.range'_succ, List.filterMap_cons, List.filterMap_cons,
      ih (s + 1)]

lemma filterMap_range_zip {α : Type} (F : Sample → Sample → Option α) :
    ∀ (l₁ l₂ : List Sample),
      (List.range' 0 (l₁.zip l₂).length).filterMap
          (fun i => F (l₁.getD i default) (l₂.getD i default))
        = (l₁.zip l₂).filterMap fun p => F p.1 p.2 := by
  intro l₁
  induction l₁ with
  | nil => intro l₂; rfl
  | cons a t ih =>
    intro l₂
    cases l₂ with
    | nil => rfl
    | cons b u =>
      rw [List.zip_cons_cons, List.length_cons, List.range'_succ, List.filterMap_cons,
        filterMap_range'_shift]
      have hfun : (fun i => F ((a :: t).getD (i + 1) default) ((b :: u).getD (i + 1) default))
          = fun i => F (t.getD i default) (u.getD i default) := rfl
      rw [hfun, ih u]
      rfl

/-- The index-based loop of `analyze_results` computes exactly the
consecutive-pairs rate list of the spec. -/
lemma cooling_rates_eq_spec (h : List Sample) : cooling_rates h = specCoolingRates h := by
  cases h with
  | nil => rfl
  | cons a t =>
    unfold cooling_rates specCoolingRates
    have hlen : (a :: t).length - 1 = ((a :: t).zip ((a :: t).tail)).length := by
      rw [List.length_zip]
      simp
    rw [hlen, show (1 : ℕ) = 0 + 1 from rfl, filterMap_range'_shift]
    have hfun : (fun i =>
        let td := ((a :: t).getD (i + 1) default).time - ((a :: t).getD (i + 1 - 1) default).time
        if 0 < td then
          some ((((a :: t).getD (i + 1 - 1) default).max_temp -
            ((a :: t).getD (i + 1) default).max_temp) / td)
        else none)
        = fun i =>
            (fun p n : Sample =>
              if 0 < n.time - p.time then some ((p.max_temp - n.max_temp) / (n.time - p.time))
              else none) ((a :: t).getD i default) (t.getD i default) := by
      funext i
      simp
    rw [hfun, show (a :: t).tail = t from rfl]
    exact filterMap_range_zip
      (fun p n => if 0 < n.time - p.time
        then some ((p.max_temp - n.max_temp) / (n.time - p.time)) else none) (a :: t) t

/-! ### `max(list)` and folded minima/maxima -/

lemma le_foldl_max (r : ℚ) (rs : List ℚ) : ∀ x ∈ r :: rs, x ≤ rs.foldl max r := by
  induction rs generalizing r with
  | nil => intro x hx; simp at hx; simp [hx]
  | cons b u ih =>
    intro x hx
    rw [List.foldl_cons]
    rcases List.mem_cons.mp hx with rfl | hx2
    · exact le_trans (le_max_left x b) (ih (max x b) (max x b) (List.mem_cons_self _ _))
    · rcases List.mem_cons.mp hx2 with rfl | hx3
      · exact le_trans (le_max_right r x) (ih (max r x) (max r x) (List.mem_cons_self _ _))
      · exact ih (max r b) x (List.mem_cons_of_mem _ hx3)

lemma foldl_max_mem (r : ℚ) (rs : List ℚ) : rs.foldl max r ∈ r :: rs := by
  induction rs generalizing r with
  | nil => simp
  | cons b u ih =>
    rw [List.foldl_cons]
    rcases List.mem_cons.mp (ih (max r b)) with h | h
    · rcases max_choice r b with hm | hm
      · rw [h, hm]
        exact List.mem_cons_self _ _
      · rw [h, hm]
        exact List.mem_cons_of_mem _ (List.mem_cons_self _ _)
    · exact List.mem_cons_of_mem _ (List.mem_cons_of_mem _ h)

lemma foldl_max_const (a : ℚ) : ∀ (l : List ℚ), (∀ x ∈ l, x = a) → l.foldl max a = a := by
  intro l
  induction l with
  | nil => intro _; rfl
  | cons b u ih =>
    intro h
    rw [List.foldl_cons, h b (List.mem_cons_self _ _), max_self]
    exact ih fun x hx => h x (List.mem_cons_of_mem _ hx)

lemma foldl_min_const (a : ℚ) : ∀ (l : List ℚ), (∀ x ∈ l, x = a) → l.foldl min a = a := by
  intro l
  induction l with
  | nil => intro _; rfl
  | cons b u ih =>
    intro h
    rw [List.foldl_cons, h b (List.mem_cons_self _ _), min_self]
    exact ih fun x hx => h x (List.mem_cons_of_mem _ hx)

/-! ### Concrete fixtures used by witnesses and counterexamples -/

/-- A concrete configuration carrying exactly the `get` defaults of the source. -/
def cfgD : Config :=
  { resolution := 1
    time_step := 1 / 10
    ambient_temperature := 25
    convection_coefficient := 10
    extrusion_temperature := 200
    cooling_rate_threshold := 5
    max_temp_threshold := 250
    material := { thermal_conductivity := 1 / 2, specific_heat := 2000, density := 1 } }

/-- A freshly constructed simulator. -/
def s0C : SimState := mkSimulator cfgD

/-- An all-void layer footprint. -/
def fpNone : Footprint := fun _ _ => false

/-- Simulator with a 10 × 10 × 1 grid (9 × 9 × 0 mm at 1 mm resolution);
its deposit circle is the single cell `(5, 5)`. -/
def s1W : SimState := initialize_grid s0C (9, 9, 0) 1

/-- The grid allocated by `s1W`. -/
def gW : Grid := { nx := 10, ny := 10, nz := 1, occ := fun _ => false, temp := fun _ => 25 }

/-- Simulator with a minimal 1 × 1 × 1 grid. -/
def s1Tiny : SimState := initialize_grid s0C (0, 0, 0) 1

lemma s1W_grid : s1W.grid = some gW := by with_unfolding_all rfl

/-- The grid produced by one `simulate_step` on grid `g`: occupancy is
untouched, the temperature array is replaced by the stencil output. -/
def stepGrid (cfg : Config) (g : Grid) : Grid := { g with temp := newTempField cfg g }

/-- The History Trace sample appended by `simulate_step` (lines 143-148),
computed on the post-update arrays. -/
def stepSample (cfg : Config) (g : Grid) (t2 : ℚ) : Sample :=
  { time := t2
    max_temp := fieldMax (stepGrid cfg g)
    min_temp := fieldMin (stepGrid cfg g)
    avg_temp := if anyOcc (stepGrid cfg g) then avgOcc (stepGrid cfg g)
                else cfg.ambient_temperature }

lemma fieldMax_const (nx ny nz : ℕ) (occ : Cell → Bool) (a : ℚ) :
    fieldMax { nx := nx, ny := ny, nz := nz, occ := occ, temp := fun _ => a } = a := by
  apply foldl_max_const
  intro x hx
  simp only [List.mem_map] at hx
  obtain ⟨c, -, rfl⟩ := hx
  rfl

lemma fieldMin_const (nx ny nz : ℕ) (occ : Cell → Bool) (a : ℚ) :
    fieldMin { nx := nx, ny := ny, nz := nz, occ := occ, temp := fun _ => a } = a := by
  apply foldl_min_const
  intro x hx
  simp only [List.mem_map] at hx
  obtain ⟨c, -, rfl⟩ := hx
  rfl

lemma anyOcc_const_false (nx ny nz : ℕ) (temp : Cell → ℚ) :
    anyOcc { nx := nx, ny := ny, nz := nz, occ := fun _ => false, temp := temp } = false := by
  simp [anyOcc]

/-! ## The claims -/

/-- C9: calling the stepping operation on a simulator whose grid was never
initialized fails with `GridNotInitialized`.  In this embedding an
`Except.error` result carries no successor state, so the failing call
allocates and mutates nothing. -/
theorem C9_step_uninitialized (s : SimState) (h : s.grid = none) :
    simulate_step s = .error .gridNotInitialized := by
  obtain ⟨cfg, og, t, hist⟩ := s
  simp only at h
  subst h
  rfl

/-- Witness for C9 at a freshly constructed simulator. -/
theorem C9_witness :
    s0C.grid = none ∧ simulate_step s0C = .error .gridNotInitialized :=
  ⟨rfl, C9_step_uninitialized s0C rfl⟩

/-- C1 fails on the code (the claim itself matches the source comment
`Save every 10th step` and the spec): after 37 stepping calls on a freshly
initialized simulator the History Trace has length 1, not
`floor(37/10) = 3`.  The guard `len(self.history) % 10 == 0` compares the
trace length, not a step counter, so it only fires on the very first call. -/
theorem C1_History_after_37_steps :
    (stepN 37 s1Tiny).map (fun s => s.history.length) = .ok 1 ∧ (1 : ℕ) ≠ 37 / 10 := by
  constructor
  · with_unfolding_all rfl
  · decide

/-- C7 counterexample: on a simulator that already holds a deposited layer
(cell `(5,5,0)` is material), a second `initialize_grid` call neither fails
nor leaves the grid unchanged: it resets the occupancy field, erasing the
deposit. -/
theorem C7_counterexample :
    (add_layer s1W fpNone 0).map (fun s => occAt s (5, 5, 0)) = .ok true ∧
    (add_layer s1W fpNone 0).map
      (fun s => occAt (initialize_grid s (9, 9, 0) 1) (5, 5, 0)) = .ok false := by
  constructor
  · with_unfolding_all rfl
  · with_unfolding_all rfl

/-- C7 amended: a second `initialize_grid` on an already-initialized
simulator does not fail; it discards the old arrays and allocates fresh
ones (all void, all ambient) for the new dimensions, while the clock, the
history and the configuration are left unchanged. -/
theorem C7_reinitialize_overwrites (s : SimState) (g : Grid) (h : s.grid = some g)
    (dimensions : ℚ × ℚ × ℚ) (resolution : ℚ) :
    (initialize_grid s dimensions resolution).grid = some
      { nx := gridDim dimensions.1 resolution
        ny := gridDim dimensions.2.1 resolution
        nz := gridDim dimensions.2.2 resolution
        occ := fun _ => false
        temp := fun _ => s.config.ambient_temperature } ∧
    (initialize_grid s dimensions resolution).time = s.time ∧
    (initialize_grid s dimensions resolution).history = s.history ∧
    (initialize_grid s dimensions resolution).config = s.config :=
  ⟨rfl, rfl, rfl, rfl⟩

/-- Witness for C7 on an initialized simulator. -/
theorem C7_witness :
    s1W.grid = some gW ∧ (initialize_grid s1W (9, 9, 0) 1).time = s1W.time :=
  ⟨s1W_grid, (C7_reinitialize_overwrites s1W gW s1W_grid (9, 9, 0) 1).2.1⟩

/-- C10: on an initialized grid with no occupied cell, `analyze_results`
reports `final_avg = 0` (per line 219, not the ambient default that History
Trace samples use), while `final_max` and `final_min` are the uniform
ambient temperature. -/
theorem C10_empty_grid_stats (s : SimState) (dimensions : ℚ × ℚ × ℚ) (resolution : ℚ) :
    ∃ rep, analyze_results (initialize_grid s dimensions resolution) = .ok rep ∧
      rep.final_avg = 0 ∧
      rep.final_max = s.config.ambient_temperature ∧
      rep.final_min = s.config.ambient_temperature := by
  refine ⟨_, rfl, ?_, ?_, ?_⟩
  · show (if anyOcc _ then _ else 0) = 0
    rw [anyOcc_const_false, if_neg]
    simp
  · exact fieldMax_const _ _ _ _ _
  · exact fieldMin_const _ _ _ _ _

/-- C4 amended: on every call with `len(history) % 10 == 0` the appended
sample records the **whole-field** maximum and minimum (void cells
included, lines 145-146) — not statistics over occupied cells — and the
average over occupied cells only, defaulting to `ambient_temperature` when
nothing is occupied. -/
theorem C4_sample_whole_field (s : SimState) (g : Grid) (hg : s.grid = some g)
    (hdec : s.history.length % 10 = 0) :
    simulate_step s = .ok
      { s with
        grid := some (stepGrid s.config g)
        time := s.time + s.config.time_step
        history := s.history ++ [stepSample s.config g (s.time + s.config.time_step)] } := by
  obtain ⟨cfg, og, t, hist⟩ := s
  simp only at hg
  subst hg
  simp only [simulate_step]
  rw [if_pos hdec]
  rfl

/-- The run used by the C4 counterexample: deposit one cell at 200 °C on a
10×10×1 grid, then step once (the step appends the first history sample). -/
def runC4 : Except SimError SimState := (add_layer s1W fpNone 0).bind simulate_step

/-- C4 counterexample: the recorded sample has `min_temp = 25` (the ambient
temperature of the void cells), while the minimum over occupied cells is
200 — the sample does not record occupied-cells-only statistics. -/
theorem C4_counterexample :
    runC4.map (fun s => s.history.map Sample.min_temp) = .ok [25] ∧
    runC4.map (fun s => s.grid.map minOcc) = .ok (some 200) ∧
    (25 : ℚ) ≠ 200 := by
  refine ⟨?_, ?_, by norm_num⟩
  · with_unfolding_all rfl
  · with_unfolding_all rfl

/-- Witness for C4 on an initialized, all-void simulator. -/
theorem C4_witness :
    s1W.history.length % 10 = 0 ∧
    (simulate_step s1W).map (fun s => s.history) =
      .ok [{ time := 1 / 10, max_temp := 25, min_temp := 25, avg_temp := 25 }] := by
  refine ⟨rfl, ?_⟩
  rw [C4_sample_whole_field s1W gW s1W_grid rfl]
  with_unfolding_all rfl

/-- C3 counterexample: `add_layer` with an all-void footprint still marks
cell `(5,5,0)` (the hard-coded circle) as material — the supplied footprint
does not determine the deposited cells. -/
theorem C3_counterexample :
    fpNone 5 5 = false ∧
    (add_layer s1W fpNone 0).map (fun s => occAt s (5, 5, 0)) = .ok true := by
  constructor
  · rfl
  · with_unfolding_all rfl

/-- C3 amended: for an in-range z index, `add_layer` ignores the supplied
footprint entirely and deposits the hard-coded circle of radius
`min(nx//2, ny//2) - 5` around `(nx//2, ny//2)`: exactly the in-grid cells
at level `z` inside that circle become material at
`extrusion_temperature`; every other cell is unmodified. -/
theorem C3_deposits_circle (s : SimState) (g : Grid) (hg : s.grid = some g)
    (fp fp2 : Footprint) (z : ℤ) (hz : 0 ≤ z ∧ z < (g.nz : ℤ)) :
    ∃ g', add_layer s fp z = .ok { s with grid := some g' } ∧
      add_layer s fp2 z = add_layer s fp z ∧
      (∀ c : Cell, g'.occ c =
        if (0 ≤ c.1 ∧ c.1 < (g.nx : ℤ) ∧ 0 ≤ c.2.1 ∧ c.2.1 < (g.ny : ℤ)) ∧
            inCircle g c.1 c.2.1 = true ∧ c.2.2 = z
        then true else g.occ c) ∧
      (∀ c : Cell, g'.temp c =
        if (0 ≤ c.1 ∧ c.1 < (g.nx : ℤ) ∧ 0 ≤ c.2.1 ∧ c.2.1 < (g.ny : ℤ)) ∧
            inCircle g c.1 c.2.1 = true ∧ c.2.2 = z
        then s.config.extrusion_temperature else g.temp c) := by
  obtain ⟨cfg, og, t, hist⟩ := s
  simp only at hg
  subst hg
  have hze : zEffective g.nz z = some z := by
    unfold zEffective
    rw [if_pos hz]
  refine ⟨(listProd (intRange g.nx) (intRange g.ny)).foldl (layerWrite cfg g z) g,
    ?_, rfl, ?_, ?_⟩
  · simp only [add_layer]
    rw [add_layer_fold_ok cfg g z z hze]
    rfl
  · intro c
    rw [depositFold_occ]
    have hcond : ((c.1, c.2.1) ∈ listProd (intRange g.nx) (intRange g.ny) ∧
        inCircle g c.1 c.2.1 = true ∧ c.2.2 = z) ↔
        ((0 ≤ c.1 ∧ c.1 < (g.nx : ℤ) ∧ 0 ≤ c.2.1 ∧ c.2.1 < (g.ny : ℤ)) ∧
          inCircle g c.1 c.2.1 = true ∧ c.2.2 = z) := by
      simp only [mem_listProd, mem_intRange]
      tauto
    rw [if_congr hcond rfl rfl]
  · intro c
    rw [depositFold_temp]
    have hcond : ((c.1, c.2.1) ∈ listProd (intRange g.nx) (intRange g.ny) ∧
        inCircle g c.1 c.2.1 = true ∧ c.2.2 = z) ↔
        ((0 ≤ c.1 ∧ c.1 < (g.nx : ℤ) ∧ 0 ≤ c.2.1 ∧ c.2.1 < (g.ny : ℤ)) ∧
          inCircle g c.1 c.2.1 = true ∧ c.2.2 = z) := by
      simp only [mem_listProd, mem_intRange]
      tauto
    rw [if_congr hcond rfl rfl]

/-- Witness for C3: the deposited circle cell of `s1W` becomes material at
the extrusion temperature. -/
theorem C3_witness :
    (add_layer s1W fpNone 0).map (fun s => tempAt s (5, 5, 0)) = .ok 200 := by
  obtain ⟨g', hok, hfp, hoccAll, htempAll⟩ :=
    C3_deposits_circle s1W gW s1W_grid fpNone fpNone 0 (by constructor <;> decide)
  rw [hok]
  simp only [Except.map, tempAt]
  rw [htempAll (5, 5, 0)]
  with_unfolding_all rfl

/-- C6 counterexample: on a 10×10×1 grid, `add_layer` at `z_level = -1`
(outside `[0, nz)`) does **not** fail: numpy wraps the negative index and
the call deposits into layer `nz - 1 = 0`, mutating the fields. -/
theorem C6_counterexample :
    ((-1 : ℤ) < 0 ∨ (gW.nz : ℤ) ≤ -1) ∧
    errOf (add_layer s1W fpNone (-1)) = none ∧
    (add_layer s1W fpNone (-1)).map (fun s => occAt s (5, 5, 0)) = .ok true := by
  refine ⟨Or.inl (by norm_num), ?_, ?_⟩
  · with_unfolding_all rfl
  · with_unfolding_all rfl

/-- C6 amended: the failing indices are those outside `[-nz, nz)` (numpy
semantics), not those outside `[0, nz)`: provided the hard-coded circle is
nonempty (`min(nx//2, ny//2) ≥ 5`), a call with `z_level ≥ nz` or
`z_level < -nz` fails with `IndexOutOfRange`, and — the failing store being
the first one attempted — leaves the occupancy and temperature fields
unchanged (the `Except.error` result carries no successor state).
A `z_level` in `[-nz, 0)` instead wraps around and deposits. -/
theorem C6_out_of_range (s : SimState) (g : Grid) (hg : s.grid = some g)
    (fp : Footprint) (z : ℤ)
    (hr : 5 ≤ min (centerX g) (centerY g))
    (hz : (g.nz : ℤ) ≤ z ∨ z < -(g.nz : ℤ)) :
    add_layer s fp z = .error .indexOutOfRange := by
  obtain ⟨cfg, og, t, hist⟩ := s
  simp only at hg
  subst hg
  have hze : zEffective g.nz z = none := by
    unfold zEffective
    rw [if_neg (by omega), if_neg (by omega)]
  have hcx5 : (5 : ℤ) ≤ centerX g := le_trans hr (min_le_left _ _)
  have hcy5 : (5 : ℤ) ≤ centerY g := le_trans hr (min_le_right _ _)
  have hnx : centerX g < (g.nx : ℤ) := by
    unfold centerX at hcx5 ⊢
    omega
  have hny : centerY g < (g.ny : ℤ) := by
    unfold centerY at hcy5 ⊢
    omega
  have hcirc : inCircle g (centerX g) (centerY g) = true := by
    unfold inCircle
    rw [decide_eq_true_eq]
    constructor
    · unfold circRadius
      omega
    · have hzero : (centerX g - centerX g) ^ 2 + (centerY g - centerY g) ^ 2 = 0 := by ring
      rw [hzero]
      positivity
  have hmem : ((centerX g, centerY g) : ℤ × ℤ) ∈ listProd (intRange g.nx) (intRange g.ny) := by
    rw [mem_listProd]
    exact ⟨mem_intRange.mpr ⟨by omega, hnx⟩, mem_intRange.mpr ⟨by omega, hny⟩⟩
  simp only [add_layer]
  rw [add_layer_fold_err cfg g z hze _ g ⟨(centerX g, centerY g), hmem, hcirc⟩]
  rfl

/-- Witness for C6 at `z_level = nz` on the 10×10×1 grid. -/
theorem C6_witness :
    ((gW.nz : ℤ) ≤ 1 ∨ (1 : ℤ) < -(gW.nz : ℤ)) ∧
    add_layer s1W fpNone 1 = .error .indexOutOfRange := by
  refine ⟨Or.inl (by norm_num [gW]), ?_⟩
  exact C6_out_of_range s1W gW s1W_grid fpNone 1
    (by norm_num [centerX, centerY, gW]) (Or.inl (by norm_num [gW]))

/-! ### C2: the interior stencil update -/

lemma inBounds_interior_nbr (g : Grid) (c : Cell) (hc : c ∈ interiorCells g) :
    ∀ d ∈ nbrOffsets, inBounds g (c + d) = true := by
  obtain ⟨cx, cy, cz⟩ := c
  obtain ⟨h1, h2, h3, h4, h5, h6⟩ := mem_interiorCells.mp hc
  intro d hd
  unfold inBounds
  rw [decide_eq_true_eq]
  simp only [nbrOffsets, List.mem_cons, List.not_mem_nil, or_false] at hd
  rcases hd with rfl | rfl | rfl | rfl | rfl | rfl <;>
    · simp only [Prod.mk_add_mk]
      omega

lemma isSurfaceAt_interior (g : Grid) (c : Cell) (hc : c ∈ interiorCells g) :
    isSurfaceAt g c = true ↔ ∃ d ∈ nbrOffsets, g.occ (c + d) = false := by
  unfold isSurfaceAt
  rw [List.any_eq_true]
  constructor
  · rintro ⟨d, hd, hb⟩
    rw [Bool.and_eq_true, Bool.not_eq_true'] at hb
    exact ⟨d, hd, hb.2⟩
  · rintro ⟨d, hd, hvoid⟩
    refine ⟨d, hd, ?_⟩
    rw [Bool.and_eq_true, Bool.not_eq_true']
    exact ⟨inBounds_interior_nbr g _ hc d hd, hvoid⟩

/-- C2: one `simulate_step` gives every interior occupied cell the new
temperature `old_T + alpha * time_step * laplacian`, plus — exactly when
some axis neighbor is void — the convective correction
`convection_coefficient * (ambient - old_T) * time_step / (density *
specific_heat)`.  Every quantity on the right-hand side (`lapAt g`,
`g.occ`, `g.temp`) is read from the prior-step grid `g`, not from the
in-progress buffer. -/
theorem C2_interior_update (s : SimState) (g : Grid) (hg : s.grid = some g)
    (i j k : ℤ)
    (hi : 0 < i ∧ i < (g.nx : ℤ) - 1) (hj : 0 < j ∧ j < (g.ny : ℤ) - 1)
    (hk : 0 < k ∧ k < (g.nz : ℤ) - 1)
    (hocc : g.occ (i, j, k) = true) :
    (simulate_step s).map (fun s2 => tempAt s2 (i, j, k)) =
      .ok (g.temp (i, j, k) + alphaOf s.config * s.config.time_step * lapAt g (i, j, k) +
        if ∃ d ∈ nbrOffsets, g.occ ((i, j, k) + d) = false then
          s.config.convection_coefficient * (s.config.ambient_temperature - g.temp (i, j, k)) *
            s.config.time_step / (s.config.material.density * s.config.material.specific_heat)
        else 0) := by
  obtain ⟨cfg, og, t, hist⟩ := s
  simp only at hg
  subst hg
  have hmem : ((i, j, k) : Cell) ∈ interiorCells g :=
    mem_interiorCells.mpr (by omega)
  simp only [simulate_step, Except.map, tempAt]
  congr 1
  show newTempField cfg g (i, j, k) = _
  rw [newTempField_apply, if_pos hmem]
  unfold newVal
  rw [if_pos hocc]
  by_cases hs : isSurfaceAt g (i, j, k) = true
  · rw [if_pos hs, if_pos ((isSurfaceAt_interior g _ hmem).mp hs)]
  · rw [if_neg hs, if_neg (fun hex => hs ((isSurfaceAt_interior g _ hmem).mpr hex))]
    rw [add_zero]

/-- Grid with a single occupied interior cell `(5,5,1)` at 200 °C in an
ambient 10 × 10 × 3 block. -/
def gC2 : Grid :=
  { nx := 10, ny := 10, nz := 3
    occ := fun c => decide (c = (5, 5, 1))
    temp := fun c => if c = (5, 5, 1) then 200 else 25 }

/-- Simulator state around `gC2`. -/
def sC2 : SimState := { config := cfgD, grid := some gC2, time := 0, history := [] }

/-- Witness for C2: the hot surface cell `(5,5,1)` of `sC2` diffuses and
convects to `200 - 91/800` in one step. -/
theorem C2_witness :
    gC2.occ (5, 5, 1) = true ∧
    (simulate_step sC2).map (fun s2 => tempAt s2 (5, 5, 1)) = .ok (200 - 91 / 800) := by
  refine ⟨by decide, ?_⟩
  rw [C2_interior_update sC2 gC2 rfl 5 5 1 (by decide) (by decide) (by decide) (by decide)]
  with_unfolding_all rfl

/-! ### C5: the cooling-rate analysis -/

lemma cooling_rates_short (h : List Sample) (hl : h.length < 2) : cooling_rates h = [] := by
  cases h with
  | nil => rfl
  | cons a t =>
    cases t with
    | nil => rfl
    | cons b u =>
      exact absurd hl (by simp only [List.length_cons]; omega)

/-- C5: `analyze_results` computes one cooling rate per consecutive pair of
history samples with positive time delta (skipping the others),
`max_cooling_rate` is the maximum of these rates (0 when the trace has
fewer than two samples), and a `high_cooling_rate` issue is flagged exactly
when `max_cooling_rate` exceeds `cooling_rate_threshold`. -/
theorem C5_cooling_analysis (s : SimState) (g : Grid) (hg : s.grid = some g) :
    ∃ rep, analyze_results s = .ok rep ∧
      cooling_rates s.history = specCoolingRates s.history ∧
      rep.max_cooling_rate = maxRateOf (cooling_rates s.history) ∧
      (∀ r ∈ cooling_rates s.history, r ≤ rep.max_cooling_rate) ∧
      (cooling_rates s.history ≠ [] → rep.max_cooling_rate ∈ cooling_rates s.history) ∧
      (s.history.length < 2 → rep.max_cooling_rate = 0) ∧
      ((∃ iss ∈ rep.potential_issues, iss.type = IssueType.high_cooling_rate) ↔
        s.config.cooling_rate_threshold < rep.max_cooling_rate) := by
  obtain ⟨cfg, og, t, hist⟩ := s
  simp only at hg
  subst hg
  refine ⟨_, rfl, cooling_rates_eq_spec hist, rfl, ?_, ?_, ?_, ?_⟩
  · intro r hr
    show r ≤ maxRateOf (cooling_rates hist)
    rcases hrates : cooling_rates hist with _ | ⟨r0, rs⟩
    · rw [hrates] at hr
      exact absurd hr (List.not_mem_nil r)
    · rw [hrates] at hr
      exact le_foldl_max r0 rs r hr
  · intro hne
    show maxRateOf (cooling_rates hist) ∈ cooling_rates hist
    rcases hrates : cooling_rates hist with _ | ⟨r0, rs⟩
    · exact absurd hrates hne
    · exact foldl_max_mem r0 rs
  · intro h2
    show maxRateOf (cooling_rates hist) = 0
    rw [cooling_rates_short hist h2]
    rfl
  · show (∃ iss ∈
        ((if cfg.cooling_rate_threshold < maxRateOf (cooling_rates hist) then
            [(⟨IssueType.high_cooling_rate, maxRateOf (cooling_rates hist),
              cfg.cooling_rate_threshold⟩ : Issue)]
          else []) ++
          (if cfg.max_temp_threshold < fieldMax g then
            [(⟨IssueType.high_temperature, fieldMax g, cfg.max_temp_threshold⟩ : Issue)]
          else [])),
        iss.type = IssueType.high_cooling_rate) ↔
      cfg.cooling_rate_threshold < maxRateOf (cooling_rates hist)
    constructor
    · rintro ⟨iss, hmem, htype⟩
      by_cases h1 : cfg.cooling_rate_threshold < maxRateOf (cooling_rates hist)
      · exact h1
      · exfalso
        rw [if_neg h1, List.nil_append] at hmem
        by_cases h2 : cfg.max_temp_threshold < fieldMax g
        · rw [if_pos h2] at hmem
          rw [List.mem_singleton.mp hmem] at htype
          exact IssueType.noConfusion htype
        · rw [if_neg h2] at hmem
          exact List.not_mem_nil _ hmem
    · intro h1
      refine ⟨⟨IssueType.high_cooling_rate, maxRateOf (cooling_rates hist),
        cfg.cooling_rate_threshold⟩, ?_, rfl⟩
      rw [if_pos h1]
      exact List.mem_append_left _ (List.mem_singleton_self _)

/-- Simulator state with a two-sample trace: max temperature falls from 100
to 90 over 2 seconds, a cooling rate of 5. -/
def sC5 : SimState :=
  { config := cfgD, grid := some gW, time := 1
    history := [⟨0, 100, 20, 50⟩, ⟨2, 90, 20, 50⟩] }

/-- Witness for C5 on the two-sample trace. -/
theorem C5_witness :
    sC5.grid = some gW ∧
    (analyze_results sC5).map Report.max_cooling_rate = .ok 5 := by
  refine ⟨rfl, ?_⟩
  obtain ⟨rep, hok, hspec, hmcr, hub, hmem, hshort, hiff⟩ := C5_cooling_analysis sC5 gW rfl
  rw [hok]
  simp only [Except.map]
  rw [hmcr]
  with_unfolding_all rfl

/-! ### C8: energy balance of one diffusion step -/

lemma nodup_allCells (g : Grid) : (allCells g).Nodup :=
  nodup_listProd (nodup_intRange _) (nodup_listProd (nodup_intRange _) (nodup_intRange _))

/-- The interior cells as a finite set. -/
def interiorFinset (g : Grid) : Finset Cell :=
  Finset.Icc (1 : ℤ) ((g.nx : ℤ) - 2) ×ˢ
    (Finset.Icc (1 : ℤ) ((g.ny : ℤ) - 2) ×ˢ Finset.Icc (1 : ℤ) ((g.nz : ℤ) - 2))

lemma mem_interiorFinset {g : Grid} {c : Cell} :
    c ∈ interiorFinset g ↔
      1 ≤ c.1 ∧ c.1 ≤ (g.nx : ℤ) - 2 ∧ 1 ≤ c.2.1 ∧ c.2.1 ≤ (g.ny : ℤ) - 2 ∧
        1 ≤ c.2.2 ∧ c.2.2 ≤ (g.nz : ℤ) - 2 := by
  obtain ⟨i, j, k⟩ := c
  simp only [interiorFinset, Finset.mem_product, Finset.mem_Icc]
  tauto

/-- The six stencil offsets as a finite set. -/
def dirsFinset : Finset Cell :=
  {(1, 0, 0), (-1, 0, 0), (0, 1, 0), (0, -1, 0), (0, 0, 1), (0, 0, -1)}

/-- Net heat flowing into the interior through its boundary faces: one term
per (interior cell, offset) pair whose neighbor lies outside the interior. -/
def boundaryFlux (g : Grid) : ℚ :=
  ∑ p ∈ (interiorFinset g ×ˢ dirsFinset).filter (fun p => p.1 + p.2 ∉ interiorFinset g),
    (g.temp (p.1 + p.2) - g.temp p.1)

lemma lapAt_eq_sum (g : Grid) (c : Cell) :
    lapAt g c = ∑ d ∈ dirsFinset, (g.temp (c + d) - g.temp c) := by
  have h1 : dirsFinset = insert ((1 : ℤ), (0 : ℤ), (0 : ℤ)) (insert (-1, 0, 0)
      (insert (0, 1, 0) (insert (0, -1, 0) (insert (0, 0, 1)
        ({(0, 0, -1)} : Finset Cell))))) := rfl
  rw [h1, Finset.sum_insert (by decide), Finset.sum_insert (by decide),
    Finset.sum_insert (by decide), Finset.sum_insert (by decide),
    Finset.sum_insert (by decide), Finset.sum_singleton]
  unfold lapAt
  ring

lemma dirs_neg_mem : ∀ d ∈ dirsFinset, -d ∈ dirsFinset := by decide

lemma dirs_neg_ne : ∀ d ∈ dirsFinset, -d ≠ d := by decide

/-- Interior-to-interior stencil contributions cancel in pairs; what
remains of the summed Laplacians is exactly the boundary flux. -/
lemma sum_lap_interior (g : Grid) :
    (∑ c ∈ interiorFinset g, lapAt g c) = boundaryFlux g := by
  have hprod : (∑ p ∈ interiorFinset g ×ˢ dirsFinset, (g.temp (p.1 + p.2) - g.temp p.1))
      = ∑ c ∈ interiorFinset g, ∑ d ∈ dirsFinset, (g.temp (c + d) - g.temp c) := by
    rw [Finset.sum_product]
  have hzero : ∑ p ∈ (interiorFinset g ×ˢ dirsFinset).filter
      (fun p => p.1 + p.2 ∈ interiorFinset g), (g.temp (p.1 + p.2) - g.temp p.1) = 0 := by
    have gmem : ∀ p ∈ (interiorFinset g ×ˢ dirsFinset).filter
        (fun p => p.1 + p.2 ∈ interiorFinset g),
        ((p.1 + p.2, -p.2) : Cell × Cell) ∈ (interiorFinset g ×ˢ dirsFinset).filter
          (fun p => p.1 + p.2 ∈ interiorFinset g) := by
      intro p hp
      rcases Finset.mem_filter.mp hp with ⟨hpp, hsum⟩
      rcases Finset.mem_product.mp hpp with ⟨hp1, hp2⟩
      refine Finset.mem_filter.mpr ⟨Finset.mem_product.mpr ⟨?_, ?_⟩, ?_⟩
      · exact hsum
      · exact dirs_neg_mem p.2 hp2
      · show p.1 + p.2 + -p.2 ∈ interiorFinset g
        rw [add_neg_cancel_right]
        exact hp1
    refine Finset.sum_involution (fun p _ => (p.1 + p.2, -p.2)) ?_ ?_
      (fun p hp => gmem p hp) ?_
    · intro p hp
      show (g.temp (p.1 + p.2) - g.temp p.1) +
        (g.temp (p.1 + p.2 + -p.2) - g.temp (p.1 + p.2)) = 0
      rw [add_neg_cancel_right]
      ring
    · intro p hp hne hEq
      have hd : p.2 ∈ dirsFinset := (Finset.mem_product.mp (Finset.mem_filter.mp hp).1).2
      have h2 : -p.2 = p.2 := congrArg Prod.snd hEq
      exact dirs_neg_ne p.2 hd h2
    · intro p hp
      show (p.1 + p.2 + -p.2, -(-p.2)) = p
      rw [add_neg_cancel_right, neg_neg]
  calc ∑ c ∈ interiorFinset g, lapAt g c
      = ∑ c ∈ interiorFinset g, ∑ d ∈ dirsFinset, (g.temp (c + d) - g.temp c) :=
        Finset.sum_congr rfl fun c _ => lapAt_eq_sum g c
    _ = ∑ p ∈ interiorFinset g ×ˢ dirsFinset, (g.temp (p.1 + p.2) - g.temp p.1) := hprod.symm
    _ = boundaryFlux g := by
        rw [← Finset.sum_filter_add_sum_filter_not (interiorFinset g ×ˢ dirsFinset)
          (fun p => p.1 + p.2 ∈ interiorFinset g) (fun p => g.temp (p.1 + p.2) - g.temp p.1),
          hzero, zero_add]
        rfl

lemma occ_filter_toFinset (g : Grid)
    (hocc : ∀ c ∈ allCells g, (g.occ c = true ↔ c ∈ interiorFinset g)) :
    ((allCells g).filter fun c => g.occ c).toFinset = interiorFinset g := by
  ext c
  rw [List.mem_toFinset, List.mem_filter]
  constructor
  · rintro ⟨hmem, hoc⟩
    exact (hocc _ hmem).mp hoc
  · intro hin
    have hb := mem_interiorFinset.mp hin
    obtain ⟨i, j, k⟩ := c
    have hmem : ((i, j, k) : Cell) ∈ allCells g := mem_allCells.mpr (by
      simp only at hb
      omega)
    exact ⟨hmem, (hocc _ hmem).mpr hin⟩

/-- C8 amended: for a fully occupied interior with `convection_coefficient
= 0`, the sum of temperatures over occupied cells is **not** invariant in
general: one step changes it by exactly `alpha * time_step * boundaryFlux`,
the heat exchanged with the fixed ambient boundary frame through the
Laplacian.  It is conserved exactly when that flux vanishes. -/
theorem C8_heat_flux (s : SimState) (g : Grid) (hg : s.grid = some g)
    (hconv : s.config.convection_coefficient = 0)
    (hocc : ∀ c ∈ allCells g, (g.occ c = true ↔ c ∈ interiorFinset g)) :
    (simulate_step s).map sumOccOf =
      .ok (some (sumOccTemps g + alphaOf s.config * s.config.time_step * boundaryFlux g)) := by
  obtain ⟨cfg, og, t, hist⟩ := s
  simp only at hg hconv
  subst hg
  simp only [simulate_step, Except.map, sumOccOf, Option.map_some']
  have hnd : ((allCells g).filter fun c => g.occ c).Nodup := (nodup_allCells g).filter _
  have htf := occ_filter_toFinset g hocc
  have hL : sumOccTemps g = ∑ c ∈ interiorFinset g, g.temp c := by
    unfold sumOccTemps occTemps
    rw [← List.sum_toFinset _ hnd, htf]
  have hL2 : sumOccTemps { g with temp := newTempField cfg g }
      = ∑ c ∈ interiorFinset g, newTempField cfg g c := by
    show (((allCells g).filter fun c => g.occ c).map (newTempField cfg g)).sum = _
    rw [← List.sum_toFinset _ hnd, htf]
  have hcell : ∀ c ∈ interiorFinset g,
      newTempField cfg g c = g.temp c + alphaOf cfg * cfg.time_step * lapAt g c := by
    intro c hc
    have hb := mem_interiorFinset.mp hc
    obtain ⟨i, j, k⟩ := c
    simp only at hb
    have hcInt : ((i, j, k) : Cell) ∈ interiorCells g := mem_interiorCells.mpr (by omega)
    have hcAll : ((i, j, k) : Cell) ∈ allCells g := mem_allCells.mpr (by omega)
    have hoc : g.occ (i, j, k) = true := (hocc _ hcAll).mpr hc
    rw [newTempField_apply, if_pos hcInt]
    unfold newVal
    rw [if_pos hoc, hconv]
    simp only [zero_mul, zero_div, add_zero, ite_self]
  have key : sumOccTemps { g with temp := newTempField cfg g }
      = sumOccTemps g + alphaOf cfg * cfg.time_step * boundaryFlux g := by
    rw [hL, hL2, Finset.sum_congr rfl hcell, Finset.sum_add_distrib, ← Finset.mul_sum,
      sum_lap_interior]
  rw [key]

/-- Configuration for the C8 instances: no convection, diffusivity 1. -/
def cfgC8 : Config :=
  { cfgD with
    convection_coefficient := 0
    material := { thermal_conductivity := 2000, specific_heat := 2000, density := 1 } }

/-- 3×3×3 grid whose single interior cell `(1,1,1)` is occupied at 200 °C,
surrounded by the fixed void boundary at 25 °C. -/
def gC8 : Grid :=
  { nx := 3, ny := 3, nz := 3
    occ := fun c => decide (c = (1, 1, 1))
    temp := fun c => if c = (1, 1, 1) then 200 else 25 }

/-- Simulator state around `gC8`. -/
def sC8 : SimState := { config := cfgC8, grid := some gC8, time := 0, history := [] }

/-- C8 counterexample: with convection off and a fully occupied interior,
one step drops the occupied-cell temperature sum from 200 to 95 — a change
of 105 °C, not a numerical tolerance: the interior exchanges heat with the
fixed ambient boundary through the Laplacian. -/
theorem C8_counterexample :
    sC8.config.convection_coefficient = 0 ∧
    sumOccOf sC8 = some 200 ∧
    (simulate_step sC8).map sumOccOf = .ok (some 95) ∧
    (95 : ℚ) ≠ 200 := by
  refine ⟨rfl, ?_, ?_, by norm_num⟩
  · with_unfolding_all rfl
  · with_unfolding_all rfl

/-- Witness for C8: the flux identity evaluated on `sC8`. -/
theorem C8_witness :
    cfgC8.convection_coefficient = 0 ∧
    (simulate_step sC8).map sumOccOf =
      .ok (some (sumOccTemps gC8 + alphaOf cfgC8 * cfgC8.time_step * boundaryFlux gC8)) := by
  refine ⟨rfl, ?_⟩
  exact C8_heat_flux sC8 gC8 rfl rfl (by decide)

end ThermalSim
